import Mathlib

/-!
# Verification of the rusty-web HTTP/1.1 engine core

Shallow embedding of the request/response engine of the `rusty-web`
repository (`src/headers/mod.rs`, `src/parser/mod.rs`, `src/request/mod.rs`,
`src/response/mod.rs`, `src/status/mod.rs`, `src/lib.rs`) together with
theorems settling the specification claims about it.

Modelling conventions:
* Rust byte buffers (`Vec<u8>`, `[u8]`) are `List Nat`, one entry per byte.
* Rust `String`/`&str` values are `List Char` when the code manipulates
  them structurally (splitting, trimming), or Lean `String` for header-map
  keys where only exact equality is used.  `String::from_utf8_lossy` is
  modelled as byte-to-char coercion, which is faithful for the ASCII data
  these code paths manipulate.
* The blocking TCP socket is modelled as the schedule of reads it will
  deliver: a `List (List Nat)`, one entry per successful `read` call.
  `read_exact` may span several deliveries, so it draws from the
  concatenation.
* Rust functions that can `panic!`/`unwrap`/`expect` on `None` are given an
  `Option` result where the claims depend on it: `none` models the panic.
* Loops whose iteration count is driven by socket data recurse structurally
  on the remaining delivery schedule; the one loop indexed by the number of
  multipart parts (`parse_body_parts`) takes explicit fuel, with `none`
  meaning the fuel ran out (never a real outcome of the program).
-/

namespace RustyWeb

/-- Bytes of the ASCII string `s`. -/
def strBytes (s : String) : List Nat := s.data.map Char.toNat

/-- Chars of a string literal. -/
def strChars (s : String) : List Char := s.data

instance {ε α : Type} [DecidableEq ε] [DecidableEq α] : DecidableEq (Except ε α) := fun x y =>
  match x, y with
  | .error a, .error b =>
    match decEq a b with
    | .isTrue h => .isTrue (by rw [h])
    | .isFalse h => .isFalse (fun hh => h (Except.error.inj hh))
  | .error _, .ok _ => .isFalse (fun hh => Except.noConfusion hh)
  | .ok _, .error _ => .isFalse (fun hh => Except.noConfusion hh)
  | .ok a, .ok b =>
    match decEq a b with
    | .isTrue h => .isTrue (by rw [h])
    | .isFalse h => .isFalse (fun hh => h (Except.ok.inj hh))

/-- `String::from_utf8_lossy`, restricted to the ASCII byte sequences these
code paths manipulate: each byte becomes the corresponding character. -/
def bytesToChars (l : List Nat) : List Char := l.map Char.ofNat

/-- `\r\n` as bytes. -/
def crlf : List Nat := [13, 10]

/-- `\r\n\r\n` as bytes — the header terminator. -/
def crlfcrlf : List Nat := [13, 10, 13, 10]

/-- `buffer.windows(pat.len()).position(|w| w == pat)`: index of the first
occurrence of `pat` as a contiguous sublist.  (The source never calls this
with an empty pattern, where Rust's `windows(0)` would panic.) -/
def findSub (pat : List Nat) : List Nat → Option Nat
  | [] => none
  | x :: l =>
    if (x :: l).take pat.length = pat then some 0
    else (findSub pat l).map (· + 1)

/-- `slice.ends_with(suffix)`. -/
def endsWithB (suffix l : List Nat) : Bool :=
  decide (suffix.length ≤ l.length) && decide (l.drop (l.length - suffix.length) = suffix)

/-! ## Request header map (`src/headers/mod.rs`)

`pub type Headers = HashMap<String, Vec<String>>;` with exact-string keys.
Lookup semantics of the hash map are order-independent, so an association
list with `lookup` is a faithful model for every read operation the code
performs on request headers. -/

/-- Request `Headers` map. -/
abbrev HeadersM := List (String × List String)

/-- `headers.get(key)`. -/
def hGet (headers : HeadersM) (key : String) : Option (List String) :=
  (headers.find? (fun p => p.1 = key)).map (·.2)

/-- Rust `str::parse::<usize>()`: optional leading `+`, then one or more
ASCII digits (overflow ignored: the inputs of interest are small). -/
def parseUsize (s : List Char) : Option Nat :=
  let digits := match s with
    | '+' :: rest => rest
    | _ => s
  if digits ≠ [] ∧ digits.all Char.isDigit then
    some (digits.foldl (fun acc c => 10 * acc + (c.toNat - 48)) 0)
  else
    none

/-- `content_length` (src/headers/mod.rs:89-99).  Outer `none` models the
panic of `value.parse::<usize>().expect("Invalid content length")`;
`some none` is the `None` return (header absent or empty value list);
`some (some n)` the parsed length. -/
def contentLength (headers : HeadersM) : Option (Option Nat) :=
  match hGet headers "Content-Length" with
  | some values =>
    if values.length > 0 then
      match parseUsize (values.headI.data) with
      | some n => some (some n)
      | none => none
    else
      some none
  | none => some none

/-- `connection_type` (src/headers/mod.rs:103-112). -/
def connectionType (headers : HeadersM) : Option String :=
  match hGet headers "Connection" with
  | some values => if values.length > 0 then some values.headI else none
  | none => none

/-- `extract_content_type` (src/headers/mod.rs:129-136).  Outer `none`
models the panic of `values.get(0).expect(...)` on an empty value list. -/
def extractContentType (headers : HeadersM) : Option (Option String) :=
  match hGet headers "Content-Type" with
  | some values =>
    match values with
    | v :: _ => some (some v)
    | [] => none
  | none => some none

/-! ## Header extraction (src/headers/mod.rs:21-85) -/

/-- `RequestHeaderError` (src/headers/mod.rs:10-16). -/
inductive RequestHeaderError
  | MaxSizeExceed
  | ClientDisconnected
  deriving DecidableEq, Repr

/-- The read loop of `extract_headers` (src/headers/mod.rs:27-61), over the
socket's delivery schedule (each entry one successful `read` of ≤ 1024
bytes; an exhausted schedule models the 0-byte read / error case, both of
which the source maps to `ClientDisconnected`).  The source scans the whole
1024-byte scratch buffer including its zero padding, but `\r\n\r\n` contains
no zero byte, so every match lies inside the freshly read chunk; scanning
the chunk is therefore equivalent.  Note the source scans ONLY the incoming
chunk, never the accumulated `header_bytes`. -/
def extractHeadersLoop (maxSize : Nat) (chunks : List (List Nat)) (headerBytes : List Nat) :
    Except RequestHeaderError (List Nat × List Nat) :=
  if headerBytes.length > maxSize then .error .MaxSizeExceed
  else
    match chunks with
    | [] => .error .ClientDisconnected
    | c :: rest =>
      if c.length = 0 then .error .ClientDisconnected
      else
        match findSub crlfcrlf c with
        | some k => .ok (headerBytes ++ c.take k, c.drop (k + 4))
        | none => extractHeadersLoop maxSize rest (headerBytes ++ c)

/-! ## URL-encoded decoder (src/parser/mod.rs:154-187) -/

/-- Rust `str::split(sep)` for a single-character separator, on `List Char`. -/
def splitOnCharL (sep : Char) : List Char → List (List Char)
  | [] => [[]]
  | c :: rest =>
    match splitOnCharL sep rest with
    | [] => [[]]
    | cur :: done => if c = sep then [] :: cur :: done else (c :: cur) :: done

/-- Value of an ASCII hex digit. -/
def hexVal (c : Char) : Option Nat :=
  if '0' ≤ c ∧ c ≤ '9' then some (c.toNat - 48)
  else if 'a' ≤ c ∧ c ≤ 'f' then some (c.toNat - 87)
  else if 'A' ≤ c ∧ c ≤ 'F' then some (c.toNat - 55)
  else none

/-- `url_decode` (src/parser/mod.rs:178-187), via `urlencoding::decode`:
`%hh` with two hex digits becomes the byte `hh`, any other `%` is kept
literally.  (The crate decodes to bytes and re-validates UTF-8; this model
is faithful for inputs whose decoded form is ASCII, which covers every use
in scope.) -/
def urlDecode : List Char → List Char
  | [] => []
  | '%' :: h1 :: h2 :: rest =>
    match hexVal h1, hexVal h2 with
    | some a, some b => Char.ofNat (16 * a + b) :: urlDecode rest
    | _, _ => '%' :: urlDecode (h1 :: h2 :: rest)
  | c :: rest => c :: urlDecode rest

/-- The multi-valued map `HashMap<String, Vec<String>>` built by
`parse_url_encoded`; the claims only inspect it through lookup, so an
association list is a faithful model. -/
abbrev UMap := List (List Char × List (List Char))

/-- `params.contains_key(k)`. -/
def umContains (m : UMap) (k : List Char) : Bool :=
  m.any (fun p => p.1 = k)

/-- `params.get(k)`. -/
def umLookup (m : UMap) (k : List Char) : Option (List (List Char)) :=
  (m.find? (fun p => p.1 = k)).map (·.2)

/-- `params.get_mut(k).unwrap().push(v)` when `k` is present. -/
def umPush (m : UMap) (k : List Char) (v : List Char) : UMap :=
  m.map (fun p => if p.1 = k then (p.1, p.2 ++ [v]) else p)

/-- One iteration of the `for value in values` loop of `parse_url_encoded`
(src/parser/mod.rs:158-174).  `none` models the panic of
`params.get_mut(&name_formatted).unwrap()` when the decoded key is absent —
reachable because the preceding insert uses the RAW `name`, not
`name_formatted`. -/
def parseUrlEncodedStep (params : UMap) (piece : List Char) : Option UMap :=
  match splitOnCharL '=' piece with
  | name :: value :: _ =>
    let nameFormatted := urlDecode name
    let valueFormatted := urlDecode value
    let params := if ¬ umContains params nameFormatted then params ++ [(name, [])] else params
    if umContains params nameFormatted then some (umPush params nameFormatted valueFormatted)
    else none
  | _ => some params

/-- `parse_url_encoded` (src/parser/mod.rs:154-176); `none` models a panic. -/
def parseUrlEncoded (text : List Char) : Option UMap :=
  (splitOnCharL '&' text).foldlM parseUrlEncodedStep []

/-! ## Request body / `parse_request_body` entry points (src/request/mod.rs) -/

/-- `Request::setup` (src/request/mod.rs:132-143): returns the new value of
the `body_read` flag; `none` models the panic propagated from
`content_length` on a malformed `Content-Length` value (consulted before
any method test). -/
def setupM (headers : HeadersM) (method : String) (bodyRead : Bool) : Option Bool :=
  match contentLength headers with
  | none => none
  | some cl =>
    let m := method.toUpper
    if (m = "GET" ∨ m = "HEAD" ∨ m = "OPTIONS" ∨ m = "DELETE" ∨ m = "TRACE" ∨ m = "CONNECT")
        ∧ cl = none then
      some true
    else
      some bodyRead

/-- The guard prefix of `Request::body` (src/request/mod.rs:162-173) up to
the construction of the reader: outer `none` is the `content_length` panic,
`some none` an early `return None` (body already read / header missing),
`some (some cl)` means the function proceeds to stream the body. -/
def bodyGuard (bodyRead : Bool) (headers : HeadersM) : Option (Option Nat) :=
  if bodyRead then some none
  else
    match contentLength headers with
    | none => none
    | some none => some none
    | some (some cl) => some (some cl)

/-- The dispatch prefix of `Request::parse_request_body`
(src/request/mod.rs:231-249): outer `none` is a propagated panic (from
`extract_content_type` or `content_length`), `some none` the silent return
when no `Content-Type` is present, `some (some (ct, cl))` means the function
proceeds to branch on the trimmed content type. -/
def parseRequestBodyGuard (headers : HeadersM) : Option (Option (String × Option Nat)) :=
  match extractContentType headers with
  | none => none
  | some none =>
    match contentLength headers with
    | none => none
    | some _ => some none
  | some (some ct) =>
    match contentLength headers with
    | none => none
    | some cl => some (some (ct.trim, cl))

/-! ## `Request::should_close_connection` (src/request/mod.rs:150-160) -/

/-- `should_close_connection`: `false` only when the first `Connection`
value compares (case-insensitively, Rust `to_lowercase`) equal to
`keep-alive` and the `body_read` flag is set. -/
def shouldCloseConnection (headers : HeadersM) (bodyRead : Bool) : Bool :=
  match connectionType headers with
  | some v => if v.toLower = "keep-alive" ∧ bodyRead then false else true
  | none => true

/-! ## Body reader (src/parser/mod.rs:32-95, `impl StreamReader for BodyReader`) -/

/-- `BodyReadError` (src/parser/mod.rs:14-20). -/
inductive BodyReadError
  | MaxBodySizeExceed
  | ContentLengthMissing
  | BodyAlreadyRead
  | Others (msg : String)
  deriving DecidableEq, Repr

/-- `BodyReader`: the socket is the schedule of reads it will deliver. -/
structure BodyReader where
  stream : List (List Nat)
  content_length : Nat
  bytes_read : Nat
  max_body_size : Nat
  deriving DecidableEq, Repr

namespace BodyReader

/-- `BodyReader::get_chunk` (src/parser/mod.rs:53-74).  A delivery models one
successful `stream.read`; an exhausted schedule models a read error. -/
def getChunk (r : BodyReader) : Except BodyReadError (List Nat × BodyReader) :=
  if r.bytes_read ≥ r.content_length then
    .error .MaxBodySizeExceed
  else if r.bytes_read ≥ r.max_body_size then
    .error .BodyAlreadyRead
  else
    match r.stream with
    | [] => .error (.Others "Unable to read stream. May be client disconnected.")
    | chunk :: rest =>
      .ok (chunk, { r with stream := rest, bytes_read := r.bytes_read + chunk.length })

/-- `BodyReader::get_exact` (src/parser/mod.rs:76-94).  `read_exact` may span
deliveries, so it draws `size` bytes from the concatenated schedule. -/
def getExact (r : BodyReader) (size : Nat) : Except BodyReadError (List Nat × BodyReader) :=
  if r.bytes_read ≥ r.content_length then
    .error .MaxBodySizeExceed
  else if r.bytes_read ≥ r.max_body_size then
    .error .BodyAlreadyRead
  else
    let all := r.stream.flatten
    if size ≤ all.length then
      .ok (all.take size,
        { r with stream := [all.drop size], bytes_read := r.bytes_read + size })
    else
      .error (.Others "Unable to read stream. May be client disconnected.")

end BodyReader

/-! ## Status table (src/status/mod.rs:165-241) -/

/-- `Status::status_text`. -/
def statusText (statusCode : Nat) : Option String :=
  match statusCode with
  | 100 => some "Continue"
  | 101 => some "Switching Protocols"
  | 102 => some "Processing"
  | 103 => some "Early Hints"
  | 200 => some "OK"
  | 201 => some "Created"
  | 202 => some "Accepted"
  | 203 => some "Non-Authoritative Information"
  | 204 => some "No Content"
  | 205 => some "Reset Content"
  | 206 => some "Partial Content"
  | 207 => some "Multi_Status"
  | 208 => some "Already Reported"
  | 226 => some "IM Used"
  | 300 => some "Multiple Choices"
  | 301 => some "Moved permanently"
  | 302 => some "Found"
  | 303 => some "See Other"
  | 304 => some "Not Modified"
  | 305 => some "Use Proxy"
  | 306 => some "unused"
  | 307 => some "Temporary Redirect"
  | 308 => some "Permanent Redirect"
  | 400 => some "Bad Request"
  | 401 => some "Unauthorized"
  | 402 => some "Payment Required"
  | 403 => some "Forbidden"
  | 404 => some "Not Found"
  | 405 => some "Method Not Allowed"
  | 406 => some "Not Acceptable"
  | 407 => some "Proxy Authentication Required"
  | 408 => some "Request Timeout"
  | 409 => some "Conflict"
  | 410 => some "Gone"
  | 411 => some "Length Required"
  | 412 => some "Precondition Failed"
  | 413 => some "Payload Too Large"
  | 414 => some "URI Too Long"
  | 415 => some "Unsupported Media Type"
  | 416 => some "Range Not Satisfiable"
  | 417 => some "Expectation Failed"
  | 418 => some "I',m a teapot"
  | 421 => some "Misdirected Request"
  | 422 => some "Unprocessable Content"
  | 423 => some "Locked"
  | 424 => some "Failed Dependency"
  | 425 => some "Too Early"
  | 426 => some "Upgrade Required"
  | 428 => some "Precondition Required"
  | 429 => some "Too Many Requests"
  | 431 => some "Request Header Fields Too Large"
  | 451 => some "Unavailable For Legal Reasons"
  | 500 => some "Internal Server Error"
  | 501 => some "Not Implemented"
  | 502 => some "Bad Gateway"
  | 503 => some "Service Unavailable"
  | 504 => some "Gateway Timeout"
  | 505 => some "HTTP Version Not Supported"
  | 506 => some "Variant Also Negotiates"
  | 507 => some "Insufficient Storage"
  | 508 => some "Loop Detected"
  | 510 => some "Not Extended"
  | 511 => some "Network Authentication Required"
  | _ => none

/-! ## Response serialization (src/response/mod.rs:106-182)

The response headers are a `std::collections::HashMap<String, Vec<String>>`.
`prepare_raw_headers` iterates `headers.keys()`, whose order is an
unspecified (SipHash-randomized) permutation of the key set; the model
therefore takes the iteration order as an explicit parameter, constrained
to a permutation of the keys. -/

/-- Keys of a response-header map. -/
def rhKeys (h : HeadersM) : List String := h.map (·.1)

/-- `HashMap::insert`: replaces the value of an existing key, otherwise adds
the key.  (Placement in the association list is irrelevant: serialization
order is the separate iteration-order parameter.) -/
def rhInsert (h : HeadersM) (name : String) (values : List String) : HeadersM :=
  if h.any (fun p => p.1 = name) then
    h.map (fun p => if p.1 = name then (name, values) else p)
  else
    h ++ [(name, values)]

/-- The `name: value\r\n` lines emitted for one header name
(src/response/mod.rs:169-176): one line per stored value. -/
def headerLines (h : HeadersM) (name : String) : String :=
  String.join ((((hGet h name).getD []).map (fun v => name ++ ": " ++ v ++ "\r\n")))

/-- `Response::prepare_raw_headers` (src/response/mod.rs:157-182), with the
hash map's iteration order passed explicitly. -/
def prepareRawHeaders (order : List String) (statusCode : Nat) (h : HeadersM) : String :=
  "HTTP/1.1 " ++ toString statusCode ++ " " ++ ((statusText statusCode).getD "Custom Status")
    ++ "\r\n" ++ String.join (order.map (headerLines h)) ++ "\r\n"

/-- The header map after the automatic inserts of `write_http`
(src/response/mod.rs:109-116): `Content-Length` always (`String::len`, byte
length; equal to the character count for the ASCII bodies in scope), and
`Connection: keep-alive` only when the connection is not to be closed. -/
def responseFinalHeaders (reqHeaders : HeadersM) (bodyRead : Bool) (hdrs : HeadersM)
    (content : String) : HeadersM :=
  let h1 := rhInsert hdrs "Content-Length" [toString content.length]
  if ¬ shouldCloseConnection reqHeaders bodyRead then
    rhInsert h1 "Connection" ["keep-alive"]
  else
    h1

/-- `Response::write_http` (src/response/mod.rs:106-155): the bytes written
to the socket (headers, then the body unless the request method is `HEAD`).
`none` models the panics of `expect` on missing headers or content; socket
errors and the shutdown path are not part of the serialized output. -/
def writeHttp (order : List String) (reqHeaders : HeadersM) (bodyRead : Bool) (method : String)
    (status : Option Nat) (respHeaders : Option HeadersM) (content : Option String) :
    Option String :=
  match respHeaders, content with
  | some hdrs, some c =>
    let finalHdrs := responseFinalHeaders reqHeaders bodyRead hdrs c
    match status with
    | some code =>
      some (prepareRawHeaders order code finalHdrs ++ (if method ≠ "HEAD" then c else ""))
    | none => none
  | _, _ => none

/-! ## Multipart parser (src/parser/mod.rs:349-1169)

Conventions specific to this module:
* The `StreamReader` is its delivery schedule `MReader`: the chunks
  successive `get_chunk` calls would return.  An exhausted schedule is the
  reader's `body_ended` state (as when the whole body already arrived as
  `partial_bytes`, so `bytes_read ≥ content_length` from construction), in
  which both operations fail with `BodyReadEnd`.
* Spooled `NamedTempFile`s are their byte contents; creation, writes and
  the final `seek(0)` are modelled as always succeeding.
* A result of `none` means the model derived no outcome: the source would
  panic there (an `unwrap` on `None`), or — only for the fuel-indexed
  part loop — the fuel bound was insufficient (never the program itself). -/

/-- `MultipartFormDataError` (src/parser/mod.rs:357-373). -/
inductive MultipartFormDataError
  | InvalidMultiPart (msg : String)
  | ParsingError (msg : String)
  | HeaderSizeExceed (msg : String)
  | MaxBodySizeExceed (msg : String)
  | MaxFieldSizeExceed (field : List Char) (msg : String)
  | BodyReadEnd
  | Others (msg : String)
  deriving DecidableEq, Repr

/-- `FormPart` (src/parser/mod.rs:515-522). -/
structure FormPart where
  name : Option (List Char)
  filename : Option (List Char)
  content_type : Option (List Char)
  temp_file : Option (List Nat)
  value : Option (List Nat)
  deriving DecidableEq, Repr

/-- `FormPart::empty` (src/parser/mod.rs:553-563). -/
def FormPart.empty : FormPart := ⟨none, none, none, none, none⟩

/-- `FormPartLimit` (src/parser/mod.rs:524-528). -/
structure FormPartLimit where
  max_size : Option Nat
  content_type : Option (List Char)
  deriving DecidableEq, Repr

/-- `multipart::Limits` (src/parser/mod.rs:530-535). -/
structure LimitsM where
  max_body_size : Option Nat
  max_header_size : Option Nat
  form_part_limits : List (List Char × FormPartLimit)
  deriving DecidableEq, Repr

/-- `Limits::none()` (src/parser/mod.rs:537-545). -/
def LimitsM.noLimits : LimitsM := ⟨none, none, []⟩

/-- `FormPartResult` (src/parser/mod.rs:547-551). -/
inductive FormPartResult
  | CheckNext
  | BodyCompleted
  deriving DecidableEq, Repr

/-- The multipart reader's delivery schedule. -/
abbrev MReader := List (List Nat)

/-- `FormDataReader::get_exact` (src/parser/mod.rs:498-511): `read_exact`
may span deliveries, so it draws from the concatenated schedule; an
exhausted schedule is the `body_ended` state. -/
def mGetExact (r : MReader) (size : Nat) : Except MultipartFormDataError (List Nat × MReader) :=
  match r with
  | [] => .error .BodyReadEnd
  | _ =>
    let all := r.flatten
    if size ≤ all.length then .ok (all.take size, [all.drop size])
    else .error (.Others "Unable to read stream. May be client disconnected.")

/-- `--{boundary}\r\n` (src/parser/mod.rs:624). -/
def startBoundaryBytes (boundary : List Char) : List Nat :=
  [45, 45] ++ boundary.map Char.toNat ++ [13, 10]

/-- `\r\n--{boundary}` — the part separator the body loops match
(src/parser/mod.rs:905, 1053); the spec's `INTER`. -/
def interBytes (boundary : List Char) : List Nat :=
  [13, 10, 45, 45] ++ boundary.map Char.toNat

/-- `--\r\n` (src/parser/mod.rs:953, 1093). -/
def endBodyBytes : List Nat := [45, 45, 13, 10]

/-- Rust `str::trim` on `List Char`. -/
def trimChars (l : List Char) : List Char :=
  ((l.dropWhile Char.isWhitespace).reverse.dropWhile Char.isWhitespace).reverse

/-- `l.starts_with(pre)`. -/
def startsWithL (pre l : List Char) : Bool := decide (l.take pre.length = pre)

/-- `extract_boundary` (src/parser/mod.rs:383-393).  Outer `none` models the
panic of `strip_prefix("boundary=").unwrap()` when the second `;`-token does
not carry the prefix. -/
def extractBoundary (contentType : List Char) : Option (Option (List Char)) :=
  match splitOnCharL ';' contentType with
  | _ :: second :: _ =>
    let contentTypeText := trimChars second
    if startsWithL (strChars "boundary=") contentTypeText then
      some (some (contentTypeText.drop (strChars "boundary=").length))
    else
      none
  | _ => some none

/-- Word character of the `regex` crate's `\w`, ASCII range. -/
def wordChar (c : Char) : Bool := c.isAlphanum || c = '_'

/-- One match of `(\w+)="([^"]*)"` anchored at the head of `l`: a nonempty
word-character run, then `="`, then the value up to the next `"`.  Returns
attribute, value, and the remainder after the closing quote.  (Backtracking
a shorter run never helps: it would be followed by a word character, not
`=`, so the maximal run is equivalent to the regex semantics.) -/
def matchAttr (l : List Char) : Option (List Char × List Char × List Char) :=
  let w := l.takeWhile wordChar
  if w = [] then none
  else
    match l.drop w.length with
    | '=' :: '"' :: r =>
      let v := r.takeWhile (fun c => c ≠ '"')
      match r.drop v.length with
      | '"' :: rest => some (w, v, rest)
      | _ => none
    | _ => none

/-- `captures_iter` of `(?<attribute>\w+)="(?<value>[^"]*)"`
(src/parser/mod.rs:838-849): leftmost matches, scanning resumes after each
match.  Each step consumes at least one character, so the input length is
sufficient fuel. -/
def scanCapturesAux (fuel : Nat) (l : List Char) : List (List Char × List Char) :=
  match fuel with
  | 0 => []
  | fuel + 1 =>
    match l with
    | [] => []
    | c :: cs =>
      match matchAttr (c :: cs) with
      | some (a, v, rest) => (a, v) :: scanCapturesAux fuel rest
      | none => scanCapturesAux fuel cs

/-- See `scanCapturesAux`. -/
def scanCaptures (l : List Char) : List (List Char × List Char) :=
  scanCapturesAux l.length l

/-- One captured `attribute="value"` applied to the form part
(src/parser/mod.rs:840-849). -/
def applyAttr (fp : FormPart) (av : List Char × List Char) : FormPart :=
  if av.1 = strChars "name" then { fp with name := some av.2 }
  else if av.1 = strChars "filename" then { fp with filename := some av.2 }
  else fp

/-- `parse_content_disposition_value` (src/parser/mod.rs:829-850). -/
def parseContentDispositionValue (value : List Char) (formPart : FormPart) : FormPart :=
  let value := trimChars value
  if ¬ startsWithL (strChars "form-data;") value then formPart
  else
    let remaining := trimChars (value.drop (strChars "form-data;").length)
    (scanCaptures remaining).foldl applyAttr formPart

/-- `parse_header_line` (src/parser/mod.rs:800-819); note the source splits
the line on EVERY `:` and keeps only the first two pieces. -/
def parseHeaderLine (line : List Char) (formPart : FormPart) : FormPart :=
  let line := trimChars line
  if line = [] then formPart
  else
    match splitOnCharL ':' line with
    | name :: value :: _ =>
      let headerName := trimChars name
      let headerValue := trimChars value
      if headerName.map Char.toLower = strChars "content-disposition" then
        parseContentDispositionValue headerValue formPart
      else if headerName.map Char.toLower = strChars "content-type" then
        { formPart with content_type := some headerValue }
      else formPart
    | _ => formPart

/-- `findSub` on characters (for splitting a string on `"\r\n"`). -/
def findSubC (pat : List Char) : List Char → Option Nat
  | [] => none
  | x :: l =>
    if (x :: l).take pat.length = pat then some 0
    else (findSubC pat l).map (· + 1)

/-- Rust `str::split` with a multi-character separator; each round consumes
at least one character, so `l.length + 1` is sufficient fuel. -/
def splitOnSeqAux (fuel : Nat) (pat l : List Char) : List (List Char) :=
  match fuel with
  | 0 => [l]
  | fuel + 1 =>
    match findSubC pat l with
    | none => [l]
    | some i => l.take i :: splitOnSeqAux fuel pat (l.drop (i + pat.length))

/-- See `splitOnSeqAux`. -/
def splitOnSeq (pat l : List Char) : List (List Char) := splitOnSeqAux (l.length + 1) pat l

/-- `parse_form_part_header` (src/parser/mod.rs:786-798); the source's
`Result` is always `Ok`, so the model returns the part directly. -/
def parseFormPartHeader (partHeader : List Char) : FormPart :=
  (splitOnSeq (strChars "\r\n") partHeader).foldl
    (fun fp line => parseHeaderLine line fp) FormPart.empty

/-- Whether the accumulated header block exceeds `max_header_size`
(the source's `max_header_size.is_some() && len >= unwrap()`). -/
def headerSizeExceeded (maxHeaderSize : Option Nat) (len : Nat) : Bool :=
  match maxHeaderSize with
  | some m => decide (len ≥ m)
  | none => false

/-- `extract_form_part_header` (src/parser/mod.rs:728-783).  Returns the
header block, the remaining buffer (terminator removed) and the remaining
schedule.  Faithful to the source's line 760: when the terminator is not yet
in the buffer and more than 4 bytes are present, the source appends the
literal `header_end_bytes` (`\r\n\r\n`) to the accumulator — NOT the buffer
bytes it removes. -/
def extractFormPartHeader (reader : MReader) (bodyBuffer : List Nat) (limits : LimitsM)
    (acc : List Nat) : Except MultipartFormDataError (List Nat × List Nat × MReader) :=
  match findSub crlfcrlf bodyBuffer with
  | some foundIndex =>
    let acc := acc ++ bodyBuffer.take foundIndex
    if headerSizeExceeded limits.max_header_size acc.length then
      .error (.HeaderSizeExceed "Header size exceed max specified size")
    else
      .ok (acc, bodyBuffer.drop (foundIndex + crlfcrlf.length), reader)
  | none =>
    let toCopy : Int := (bodyBuffer.length : Int) - (crlfcrlf.length : Int)
    let acc' := if toCopy > 0 then acc ++ crlfcrlf else acc
    let bodyBuffer' := if toCopy > 0 then bodyBuffer.drop toCopy.toNat else bodyBuffer
    if headerSizeExceeded limits.max_header_size acc'.length then
      .error (.HeaderSizeExceed "Header size exceed max specified size")
    else
      match reader with
      | [] => .error .BodyReadEnd
      | c :: rest =>
        if c.length = 0 then
          .error (.Others "Bytes read size is 0. Probably client disconnected.")
        else
          extractFormPartHeader rest (bodyBuffer' ++ c) limits acc'

/-- The per-field limit check both body loops perform
(`form_part_limit.is_some() && bytes_written > ...max_size.unwrap()`):
`none` models the panics (`max_size` absent, or the error path cloning an
absent `name`); `some (some e)` the size error; `some none` no error. -/
def fieldLimitCheck (fpName : Option (List Char)) (limit : Option FormPartLimit)
    (bytesWritten : Nat) (msg : String) : Option (Option MultipartFormDataError) :=
  match limit with
  | none => some none
  | some l =>
    match l.max_size with
    | none => none
    | some m =>
      if bytesWritten > m then
        match fpName with
        | none => none
        | some nm => some (some (.MaxFieldSizeExceed nm msg))
      else some none

/-- The shared boundary-tail step of both body loops
(src/parser/mod.rs:948-1001, 1088-1132): ensure 4 bytes are buffered
(requesting exactly the missing count), then compare against `--\r\n`
(final part) and `\r\n` (next part). -/
def boundaryTail (reader : MReader) (bodyBuffer : List Nat) :
    Except MultipartFormDataError (FormPartResult × List Nat × MReader) :=
  let ensured : Except MultipartFormDataError (List Nat × MReader) :=
    if bodyBuffer.length < 4 then
      match mGetExact reader (4 - bodyBuffer.length) with
      | .ok (chunk, r') => .ok (bodyBuffer ++ chunk, r')
      | .error e => .error e
    else .ok (bodyBuffer, reader)
  match ensured with
  | .error e => .error e
  | .ok (buf, rdr) =>
    if buf.take 4 = endBodyBytes then .ok (.BodyCompleted, [], rdr)
    else if buf.take 2 = crlf then .ok (.CheckNext, buf.drop 2, rdr)
    else .error (.ParsingError "Form content did not end with \r\n")

/-- `extract_form_value` (src/parser/mod.rs:1050-1168).  Returns the
in-memory value, the loop outcome, the remaining buffer and schedule. -/
def extractFormValue (boundary : List Char) (fpName : Option (List Char))
    (limit : Option FormPartLimit) (reader : MReader) (bodyBuffer valueBuffer : List Nat)
    (bytesWritten : Nat) :
    Option (Except MultipartFormDataError (List Nat × FormPartResult × List Nat × MReader)) :=
  let inter := interBytes boundary
  match findSub inter bodyBuffer with
  | some endIndex =>
    let toCopyStripped :=
      let t := bodyBuffer.take endIndex
      if endsWithB crlf t then t.take (t.length - 2) else t
    let valueBuffer' := if endIndex > 0 then valueBuffer ++ toCopyStripped else valueBuffer
    let bytesWritten' := if endIndex > 0 then bytesWritten + toCopyStripped.length else bytesWritten
    let bodyBuffer' :=
      if endIndex > 0 then bodyBuffer.drop (endIndex + inter.length) else bodyBuffer
    match fieldLimitCheck fpName limit bytesWritten'
        "The form field value size exceeds the limit specified" with
    | none => none
    | some (some e) => some (.error e)
    | some none =>
      match boundaryTail reader bodyBuffer' with
      | .error e => some (.error e)
      | .ok (res, buf, rdr) => some (.ok (valueBuffer', res, buf, rdr))
  | none =>
    let toCopySize : Int := (bodyBuffer.length : Int) - ((inter.length : Int) + 2)
    let valueBuffer' :=
      if toCopySize > 0 then valueBuffer ++ bodyBuffer.take toCopySize.toNat else valueBuffer
    let bytesWritten' := if toCopySize > 0 then bytesWritten + toCopySize.toNat else bytesWritten
    let bodyBuffer' := if toCopySize > 0 then bodyBuffer.drop toCopySize.toNat else bodyBuffer
    match fieldLimitCheck fpName limit bytesWritten'
        "The form field value size exceeds the limit specified" with
    | none => none
    | some (some e) => some (.error e)
    | some none =>
      match reader with
      | [] => some (.error .BodyReadEnd)
      | c :: rest =>
        if c.length = 0 then
          some (.error (.Others "Bytes read size is 0. Probably client disconnected."))
        else
          extractFormValue boundary fpName limit rest (bodyBuffer' ++ c) valueBuffer' bytesWritten'

/-- `extract_form_file_body` (src/parser/mod.rs:886-1048).  Identical loop
shape to `extractFormValue`, except the content is spooled to the temp file
(returned as its contents), and `bytes_written` counts the bytes BEFORE the
trailing-`\r\n` strip (source line 923). -/
def extractFormFileBody (boundary : List Char) (fpName : Option (List Char))
    (limit : Option FormPartLimit) (reader : MReader) (bodyBuffer tempFile : List Nat)
    (bytesWritten : Nat) :
    Option (Except MultipartFormDataError (List Nat × FormPartResult × List Nat × MReader)) :=
  let inter := interBytes boundary
  match findSub inter bodyBuffer with
  | some bodyEndIndex =>
    let toCopy := bodyBuffer.take bodyEndIndex
    let bytesWritten' := if bodyEndIndex > 0 then bytesWritten + toCopy.length else bytesWritten
    let toCopyStripped := if endsWithB crlf toCopy then toCopy.take (toCopy.length - 2) else toCopy
    let tempFile' := if bodyEndIndex > 0 then tempFile ++ toCopyStripped else tempFile
    let bodyBuffer' :=
      if bodyEndIndex > 0 then bodyBuffer.drop (bodyEndIndex + inter.length) else bodyBuffer
    match fieldLimitCheck fpName limit bytesWritten'
        "The file is bigger than the maximum allowed size" with
    | none => none
    | some (some e) => some (.error e)
    | some none =>
      match boundaryTail reader bodyBuffer' with
      | .error e => some (.error e)
      | .ok (res, buf, rdr) => some (.ok (tempFile', res, buf, rdr))
  | none =>
    let toCopySize : Int := (bodyBuffer.length : Int) - ((inter.length : Int) + 2)
    let tempFile' :=
      if toCopySize > 0 then tempFile ++ bodyBuffer.take toCopySize.toNat else tempFile
    let bytesWritten' := if toCopySize > 0 then bytesWritten + toCopySize.toNat else bytesWritten
    let bodyBuffer' := if toCopySize > 0 then bodyBuffer.drop toCopySize.toNat else bodyBuffer
    match fieldLimitCheck fpName limit bytesWritten'
        "The file is bigger than the maximum allowed size" with
    | none => none
    | some (some e) => some (.error e)
    | some none =>
      match reader with
      | [] => some (.error .BodyReadEnd)
      | c :: rest =>
        if c.length = 0 then
          some (.error (.Others "Bytes read size is 0. Probably client disconnected."))
        else
          extractFormFileBody boundary fpName limit rest (bodyBuffer' ++ c) tempFile' bytesWritten'

/-- `extract_form_part_body` (src/parser/mod.rs:856-873): look up the
per-field limit, then dispatch on the presence of `filename`. -/
def extractFormPartBody (reader : MReader) (bodyBuffer : List Nat) (boundary : List Char)
    (formPart : FormPart) (limits : LimitsM) :
    Option (Except MultipartFormDataError (FormPart × FormPartResult × List Nat × MReader)) :=
  let formPartLimit : Option FormPartLimit :=
    match formPart.name with
    | some nm => (limits.form_part_limits.find? (fun p => p.1 = nm)).map (·.2)
    | none => none
  if formPart.filename.isSome then
    match extractFormFileBody boundary formPart.name formPartLimit reader bodyBuffer [] 0 with
    | none => none
    | some (.error e) => some (.error e)
    | some (.ok (tempFile, res, buf, rdr)) =>
      some (.ok ({ formPart with temp_file := some tempFile }, res, buf, rdr))
  else
    match extractFormValue boundary formPart.name formPartLimit reader bodyBuffer [] 0 with
    | none => none
    | some (.error e) => some (.error e)
    | some (.ok (valueBuffer, res, buf, rdr)) =>
      some (.ok ({ formPart with value := some valueBuffer }, res, buf, rdr))

/-- `body_buffer_starts_with_boundary` (src/parser/mod.rs:708-712). -/
def bodyBufferStartsWithBoundary (bodyBuffer startBoundary : List Nat) : Bool :=
  decide (bodyBuffer.take startBoundary.length = startBoundary)

/-- The `loop` of `parse_body_parts` (src/parser/mod.rs:652-705), with fuel
bounding the number of parts processed. -/
def parseBodyPartsLoop (boundary : List Char) (limits : LimitsM) :
    Nat → MReader → List Nat → List FormPart →
    Option (Except MultipartFormDataError (List FormPart))
  | 0, _, _, _ => none
  | fuel + 1, reader, bodyBuffer, acc =>
    match extractFormPartHeader reader bodyBuffer limits [] with
    | .error e => some (.error e)
    | .ok (headerBytes, bodyBuffer, reader) =>
      let formPart := parseFormPartHeader (bytesToChars headerBytes)
      match extractFormPartBody reader bodyBuffer boundary formPart limits with
      | none => none
      | some (.error e) => some (.error e)
      | some (.ok (formPart, res, bodyBuffer, reader)) =>
        match res with
        | .BodyCompleted => some (.ok (acc ++ [formPart]))
        | .CheckNext => parseBodyPartsLoop boundary limits fuel reader bodyBuffer (acc ++ [formPart])

/-- `parse_body_parts` (src/parser/mod.rs:618-706): top up the buffer to the
length of the start boundary when needed, check and strip it, then loop. -/
def parseBodyParts (fuel : Nat) (reader : MReader) (bodyBuffer : List Nat) (boundary : List Char)
    (limits : LimitsM) : Option (Except MultipartFormDataError (List FormPart)) :=
  let sb := startBoundaryBytes boundary
  let prepared : Except MultipartFormDataError (List Nat × MReader) :=
    if bodyBuffer.length ≤ sb.length then
      match mGetExact reader (sb.length - bodyBuffer.length) with
      | .ok (chunk, r') => .ok (bodyBuffer ++ chunk, r')
      | .error e => .error e
    else .ok (bodyBuffer, reader)
  match prepared with
  | .error e => some (.error e)
  | .ok (bodyBuffer, reader) =>
    if ¬ bodyBufferStartsWithBoundary bodyBuffer sb then
      some (.error (.InvalidMultiPart "Body does not start with boundary"))
    else
      parseBodyPartsLoop boundary limits fuel reader (bodyBuffer.drop sb.length) []

/-- `multipart::parse` (src/parser/mod.rs:587-616): extract the boundary
from `Content-Type`, reject a declared `Content-Length` above
`max_body_size` BEFORE touching the reader, then parse the parts. -/
def multipartParse (fuel : Nat) (partialBytes : List Nat) (headers : HeadersM)
    (reader : MReader) (limits : LimitsM) :
    Option (Except MultipartFormDataError (List FormPart)) :=
  match hGet headers "Content-Type" with
  | none => some (.error (.InvalidMultiPart "Content-Type header missing."))
  | some values =>
    match values with
    | [] => none
    | contentType :: _ =>
      match extractBoundary contentType.data with
      | none => none
      | some none => some (.error (.InvalidMultiPart "Unable to extract multipart boundary."))
      | some (some boundary) =>
        match limits.max_body_size with
        | some maxBodySize =>
          match contentLength headers with
          | none => none
          | some (some cl) =>
            if cl > maxBodySize then
              some (.error (.MaxBodySizeExceed "Maximum specified body size exceed."))
            else
              parseBodyParts fuel reader partialBytes boundary limits
          | some none => parseBodyParts fuel reader partialBytes boundary limits
        | none => parseBodyParts fuel reader partialBytes boundary limits

/-! ## Well-formed multipart bodies

Vocabulary for stating properties of the parser over whole bodies: a part is
a raw header block plus raw content bytes, serialized in the wire format of
the source's own doc example (src/parser/mod.rs:568-586):
`--B\r\n H₁ \r\n\r\n C₁ \r\n--B\r\n H₂ \r\n\r\n C₂ \r\n--B--\r\n`. -/

/-- One multipart part as it appears on the wire. -/
structure PartSpec where
  header : List Nat
  content : List Nat
  deriving DecidableEq, Repr

/-- `header ++ \r\n\r\n ++ content`. -/
def partBlock (p : PartSpec) : List Nat := p.header ++ crlfcrlf ++ p.content

/-- The byte stream following the opening `--B\r\n`: blocks separated by
`\r\n--B\r\n`, terminated by `\r\n--B--\r\n`. -/
def partTail (b : List Char) : List PartSpec → List Nat
  | [] => []
  | [p] => partBlock p ++ interBytes b ++ endBodyBytes
  | p :: ps => partBlock p ++ interBytes b ++ crlf ++ partTail b ps

/-- A full multipart body for boundary `b`. -/
def serializeMultipart (b : List Char) (parts : List PartSpec) : List Nat :=
  startBoundaryBytes b ++ partTail b parts

/-- Well-formedness of one part: nonempty content, and neither the header
block nor the content contains a premature occurrence of its terminator
(`\r\n\r\n` resp. `\r\n--b`) — the first occurrence is the real one. -/
def wfPart (b : List Char) (p : PartSpec) : Prop :=
  p.content ≠ [] ∧
  findSub crlfcrlf (p.header ++ crlfcrlf) = some p.header.length ∧
  findSub (interBytes b) (p.content ++ interBytes b) = some p.content.length

instance (b : List Char) (p : PartSpec) : Decidable (wfPart b p) := by
  unfold wfPart
  infer_instance

/-- A part is a file part when its parsed header carries a `filename`. -/
def isFilePart (p : PartSpec) : Bool :=
  (parseFormPartHeader (bytesToChars p.header)).filename.isSome

/-- The trailing-`\r\n` strip both body loops apply to the content. -/
def stripTrailingCrlf (l : List Nat) : List Nat :=
  if endsWithB crlf l then l.take (l.length - 2) else l

/-- The completed `FormPart` for a parsed header and raw content: the
stripped content lands in `temp_file` for file parts, in `value` for value
parts. -/
def finishPart (fp : FormPart) (content : List Nat) : FormPart :=
  if fp.filename.isSome then { fp with temp_file := some (stripTrailingCrlf content) }
  else { fp with value := some (stripTrailingCrlf content) }

/-- The `FormPart` the parser produces for a well-formed part. -/
def expectedFormPart (p : PartSpec) : FormPart :=
  finishPart (parseFormPartHeader (bytesToChars p.header)) p.content

end RustyWeb

namespace RustyWeb

/-! ## Theorems for C5 and C6 -/

/-- C5: `should_close_connection()` returns `false` iff the request's
`Connection` header value is `keep-alive` (case-insensitively, as the code
compares after `to_lowercase`) and `body_read` is true; in particular it
returns `true` whenever the `Connection` header is absent, regardless of
`body_read`. -/
theorem should_close_connection_spec (headers : HeadersM) (bodyRead : Bool) :
    (shouldCloseConnection headers bodyRead = false ↔
      (∃ v, connectionType headers = some v ∧ v.toLower = "keep-alive") ∧ bodyRead = true) ∧
    (connectionType headers = none → shouldCloseConnection headers bodyRead = true) := by
  constructor
  · constructor
    · intro h
      unfold shouldCloseConnection at h
      cases hc : connectionType headers with
      | none => rw [hc] at h; simp at h
      | some v =>
        rw [hc] at h
        by_cases hkb : v.toLower = "keep-alive" ∧ bodyRead
        · exact ⟨⟨v, rfl, hkb.1⟩, hkb.2⟩
        · simp [hkb] at h
    · rintro ⟨⟨v, hc, hv⟩, hb⟩
      unfold shouldCloseConnection
      rw [hc]
      simp [hv, hb]
  · intro hc
    unfold shouldCloseConnection
    rw [hc]

/-- Closed witness for `should_close_connection_spec`. -/
theorem should_close_connection_spec_witness :
    (shouldCloseConnection [("Connection", ["keep-alive"])] true = false ↔
      (∃ v, connectionType [("Connection", ["keep-alive"])] = some v ∧
        v.toLower = "keep-alive") ∧ true = true) ∧
    (connectionType [("Connection", ["keep-alive"])] = none →
      shouldCloseConnection [("Connection", ["keep-alive"])] true = true) :=
  should_close_connection_spec [("Connection", ["keep-alive"])] true

/-- C6: for the `BodyReader`, both `get_chunk()` and `get_exact(n)` fail with
`MaxBodySizeExceed` exactly when `bytes_read ≥ content_length` at the call,
fail with `BodyAlreadyRead` exactly when `bytes_read < content_length` but
`bytes_read ≥ max_body_size`, and each successful read advances `bytes_read`
by the number of bytes obtained. -/
theorem body_reader_spec (r : BodyReader) (n : Nat) :
    (r.getChunk = .error .MaxBodySizeExceed ↔ r.bytes_read ≥ r.content_length) ∧
    (r.getChunk = .error .BodyAlreadyRead ↔
      r.bytes_read < r.content_length ∧ r.bytes_read ≥ r.max_body_size) ∧
    (∀ chunk r', r.getChunk = .ok (chunk, r') →
      r'.bytes_read = r.bytes_read + chunk.length) ∧
    (r.getExact n = .error .MaxBodySizeExceed ↔ r.bytes_read ≥ r.content_length) ∧
    (r.getExact n = .error .BodyAlreadyRead ↔
      r.bytes_read < r.content_length ∧ r.bytes_read ≥ r.max_body_size) ∧
    (∀ buf r', r.getExact n = .ok (buf, r') →
      r'.bytes_read = r.bytes_read + buf.length ∧ buf.length = n) := by
  by_cases h1 : r.bytes_read ≥ r.content_length
  · have hc : r.getChunk = .error .MaxBodySizeExceed := by
      simp [BodyReader.getChunk, h1]
    have he : r.getExact n = .error .MaxBodySizeExceed := by
      simp [BodyReader.getExact, h1]
    rw [hc, he]
    refine ⟨by simp [h1], by simp <;> omega, by simp, by simp [h1], by simp <;> omega, by simp⟩
  · by_cases h2 : r.bytes_read ≥ r.max_body_size
    · have hc : r.getChunk = .error .BodyAlreadyRead := by
        simp [BodyReader.getChunk, h1, h2]
      have he : r.getExact n = .error .BodyAlreadyRead := by
        simp [BodyReader.getExact, h1, h2]
      rw [hc, he]
      refine ⟨by simp <;> omega, by simp <;> omega, by simp, by simp <;> omega,
        by simp <;> omega, by simp⟩
    · have hle : r.bytes_read < r.content_length := lt_of_not_ge h1
      refine ⟨?_, ?_, ?_, ?_, ?_, ?_⟩
      · cases hs : r.stream <;> simp [BodyReader.getChunk, h1, h2, hs] <;> omega
      · cases hs : r.stream <;> simp [BodyReader.getChunk, h1, h2, hs] <;> omega
      · cases hs : r.stream with
        | nil => simp [BodyReader.getChunk, h1, h2, hs]
        | cons c rest =>
          intro chunk r' h
          simp only [BodyReader.getChunk, if_neg h1, if_neg h2, hs,
            Except.ok.injEq, Prod.mk.injEq] at h
          obtain ⟨hc, hr⟩ := h
          subst hc
          subst hr
          rfl
      · simp only [BodyReader.getExact, if_neg h1, if_neg h2]
        by_cases h3 : n ≤ r.stream.flatten.length
        · rw [if_pos h3]; simp <;> omega
        · rw [if_neg h3]; simp <;> omega
      · simp only [BodyReader.getExact, if_neg h1, if_neg h2]
        by_cases h3 : n ≤ r.stream.flatten.length
        · rw [if_pos h3]; simp <;> omega
        · rw [if_neg h3]; simp <;> omega
      · by_cases h3 : n ≤ r.stream.flatten.length
        · intro buf r' h
          simp only [BodyReader.getExact, if_neg h1, if_neg h2, if_pos h3,
            Except.ok.injEq, Prod.mk.injEq] at h
          obtain ⟨hb, hr⟩ := h
          subst hb
          subst hr
          exact ⟨by simp [List.length_take_of_le h3], List.length_take_of_le h3⟩
        · intro buf r' h
          simp only [BodyReader.getExact, if_neg h1, if_neg h2, if_neg h3] at h
          exact absurd h (by simp)

/-- Closed witness for `body_reader_spec`: a concrete reader exercising the
successful-read conjuncts. -/
theorem body_reader_spec_witness :
    (∀ chunk r',
      (BodyReader.mk [[1, 2, 3]] 10 0 10).getChunk = .ok (chunk, r') →
      r'.bytes_read = 0 + chunk.length) ∧
    (BodyReader.mk [[1, 2, 3]] 10 0 10).getChunk =
      .ok ([1, 2, 3], BodyReader.mk [] 10 3 10) := by
  have h := body_reader_spec (BodyReader.mk [[1, 2, 3]] 10 0 10) 2
  exact ⟨h.2.2.1, rfl⟩

/-! ## Theorems for C1 (header extractor, terminator straddling two reads) -/

/-- C1 (code bug): the stream `GET / HTTP/1.1\r\n\r\n` contains exactly one
well-formed request, and delivered in a single read the extractor returns
header text `GET / HTTP/1.1` with empty leftover; but delivered as two reads
splitting the `\r\n\r\n` terminator, the extractor never finds the
terminator (it scans only each fresh chunk) and fails with
`ClientDisconnected`.  1048576 is `MAX_HEADER_SIZE` from `decode_request`. -/
theorem extract_headers_straddle_bug :
    extractHeadersLoop 1048576 [strBytes "GET / HTTP/1.1\r\n\r" ++ strBytes "\n"] [] =
      .ok (strBytes "GET / HTTP/1.1", []) ∧
    extractHeadersLoop 1048576 [strBytes "GET / HTTP/1.1\r\n\r", strBytes "\n"] [] =
      .error .ClientDisconnected ∧
    findSub crlfcrlf (strBytes "GET / HTTP/1.1\r\n\r" ++ strBytes "\n") = some 14 := by
  refine ⟨by decide, by decide, by decide⟩

/-! ## Theorems for C4 and C8 (URL-encoded decoder) -/

theorem splitOnCharL_of_not_mem (sep : Char) (l : List Char) (h : sep ∉ l) :
    splitOnCharL sep l = [l] := by
  induction l with
  | nil => rfl
  | cons c rest ih =>
    have hc : ¬ c = sep := fun e => h (e ▸ List.mem_cons_self c rest)
    have hr : sep ∉ rest := fun m => h (List.mem_cons_of_mem _ m)
    simp [splitOnCharL, ih hr, hc]

theorem splitOnCharL_ne_nil (sep : Char) (l : List Char) : splitOnCharL sep l ≠ [] := by
  cases l with
  | nil => simp [splitOnCharL]
  | cons c rest =>
    unfold splitOnCharL
    cases h : splitOnCharL sep rest with
    | nil => simp
    | cons cur done =>
      dsimp only []
      split <;> simp

theorem splitOnCharL_append (sep : Char) (a b : List Char) (h : sep ∉ a) :
    splitOnCharL sep (a ++ sep :: b) = a :: splitOnCharL sep b := by
  induction a with
  | nil =>
    cases hb : splitOnCharL sep b with
    | nil => exact absurd hb (splitOnCharL_ne_nil sep b)
    | cons cur done => simp [splitOnCharL, hb]
  | cons c a' ih =>
    have hc : ¬ c = sep := fun e => h (e ▸ List.mem_cons_self c a')
    have ha' : sep ∉ a' := fun m => h (List.mem_cons_of_mem _ m)
    show (match splitOnCharL sep (a' ++ sep :: b) with
          | [] => [[]]
          | cur :: done => if c = sep then [] :: cur :: done else (c :: cur) :: done) =
        (c :: a') :: splitOnCharL sep b
    rw [ih ha']
    simp [hc]

/-- C4 (code bug): on input `a%20b=1`, whose field name percent-decodes to
`a b`, `parse_url_encoded` panics (`get_mut(&name_formatted).unwrap()` on a
map keyed by the raw name) instead of mapping the decoded key `a b` to
`["1"]`. -/
theorem parse_url_encoded_percent_key_panics :
    parseUrlEncoded (strChars "a%20b=1") = none ∧
    urlDecode (strChars "a%20b") = strChars "a b" := by
  refine ⟨by decide, by decide⟩

/-- C8 (amended): each `&`-separated piece is split on every `=`, and a
piece `key=v1=v2` maps the decoded key to the decoded SECOND segment `v1`
only — the remainder `=v2` is discarded, not kept as part of the value;
pieces containing no `=` contribute nothing. -/
theorem parse_url_encoded_split_amended (k v1 v2 : List Char)
    (hka : '&' ∉ k) (hke : '=' ∉ k) (hv1a : '&' ∉ v1) (hv1e : '=' ∉ v1)
    (hv2a : '&' ∉ v2) (hv2e : '=' ∉ v2) (hdk : urlDecode k = k) :
    parseUrlEncoded (k ++ '=' :: (v1 ++ '=' :: v2)) = some [(k, [urlDecode v1])] ∧
    (∀ p : List Char, '&' ∉ p → '=' ∉ p → parseUrlEncoded p = some []) := by
  constructor
  · have hamp : ('&' : Char) ∉ k ++ '=' :: (v1 ++ '=' :: v2) := by
      simp only [List.mem_append, List.mem_cons]
      push_neg
      exact ⟨hka, by decide, hv1a, by decide, hv2a⟩
    unfold parseUrlEncoded
    rw [splitOnCharL_of_not_mem _ _ hamp]
    show parseUrlEncodedStep [] _ >>= _ = _
    rw [parseUrlEncodedStep, splitOnCharL_append _ _ _ hke, splitOnCharL_append _ _ _ hv1e,
      splitOnCharL_of_not_mem _ _ hv2e]
    simp [umContains, umPush, hdk]
  · intro p hpa hpe
    unfold parseUrlEncoded
    rw [splitOnCharL_of_not_mem _ _ hpa]
    show parseUrlEncodedStep [] _ >>= _ = _
    rw [parseUrlEncodedStep, splitOnCharL_of_not_mem _ _ hpe]
    rfl

/-- Closed witness for `parse_url_encoded_split_amended` at
`k = "a"`, `v1 = "b"`, `v2 = "c"`. -/
theorem parse_url_encoded_split_amended_witness :
    parseUrlEncoded (['a'] ++ '=' :: (['b'] ++ '=' :: ['c'])) =
      some [(['a'], [urlDecode ['b']])] ∧
    (∀ p : List Char, '&' ∉ p → '=' ∉ p → parseUrlEncoded p = some []) :=
  parse_url_encoded_split_amended ['a'] ['b'] ['c'] (by decide) (by decide) (by decide)
    (by decide) (by decide) (by decide) (by decide)

/-- C8 (counterexample to the claim as stated): the claim requires
`a=b=c` to map `a` to the full remainder `b=c`; the code maps `a` to `b`. -/
theorem parse_url_encoded_split_counterexample :
    parseUrlEncoded (strChars "a=b=c") = some [(strChars "a", [strChars "b"])] ∧
    strChars "b" ≠ strChars "b=c" := by
  refine ⟨by decide, by decide⟩

/-! ## Theorems for C10 (`content_length` partiality) -/

/-- C10: when the `Content-Length` header is present but its first value
does not parse as an unsigned integer, `content_length` panics, and the
panic propagates through every request-handling path that consults the
header: `setup` (unconditionally), `body` (whenever the body has not been
read yet), and `parse_request_body` (whenever `extract_content_type` does
not itself panic first). -/
theorem content_length_panic_reachable (headers : HeadersM) (v : String) (rest : List String)
    (hv : hGet headers "Content-Length" = some (v :: rest))
    (hp : parseUsize v.data = none) :
    contentLength headers = none ∧
    (∀ method bodyRead, setupM headers method bodyRead = none) ∧
    bodyGuard false headers = none ∧
    (extractContentType headers ≠ none → parseRequestBodyGuard headers = none) := by
  have hcl : contentLength headers = none := by
    unfold contentLength
    rw [hv]
    simp [hp]
  refine ⟨hcl, ?_, ?_, ?_⟩
  · intro method bodyRead
    unfold setupM
    rw [hcl]
  · unfold bodyGuard
    simp [hcl]
  · intro hct
    unfold parseRequestBodyGuard
    cases h : extractContentType headers with
    | none => exact absurd h hct
    | some o => cases o <;> simp [hcl]

/-- Closed witness for `content_length_panic_reachable` at
`Content-Length: abc`. -/
theorem content_length_panic_reachable_witness :
    contentLength [("Content-Length", ["abc"])] = none ∧
    (∀ method bodyRead, setupM [("Content-Length", ["abc"])] method bodyRead = none) ∧
    bodyGuard false [("Content-Length", ["abc"])] = none ∧
    (extractContentType [("Content-Length", ["abc"])] ≠ none →
      parseRequestBodyGuard [("Content-Length", ["abc"])] = none) :=
  content_length_panic_reachable [("Content-Length", ["abc"])] "abc" [] (by decide) (by decide)

/-! ## Theorems for C7 (response serialization) -/

theorem find?_map_keyhit (t : HeadersM) (k : String) (v : List String)
    (hc : t.any (fun p => p.1 = k) = true) :
    List.find? (fun p => decide (p.1 = k)) (t.map (fun p => if p.1 = k then (k, v) else p)) =
      some (k, v) := by
  induction t with
  | nil => simp at hc
  | cons p t ih =>
    by_cases hp : p.1 = k
    · rw [List.map_cons, if_pos hp, List.find?_cons_of_pos _ (by simp)]
    · have hct : t.any (fun p => p.1 = k) = true := by
        simpa [List.any_cons, hp] using hc
      rw [List.map_cons, if_neg hp, List.find?_cons_of_neg _ (by simp [hp]), ih hct]

theorem find?_map_keyfix (t : HeadersM) (k k' : String) (v : List String) (hne : k' ≠ k) :
    List.find? (fun p => decide (p.1 = k)) (t.map (fun p => if p.1 = k' then (k', v) else p)) =
      List.find? (fun p => decide (p.1 = k)) t := by
  induction t with
  | nil => rfl
  | cons p t ih =>
    by_cases hp : p.1 = k'
    · have hpk : ¬ p.1 = k := by rw [hp]; exact hne
      rw [List.map_cons, if_pos hp, List.find?_cons_of_neg _ (by simp [hne]),
        List.find?_cons_of_neg _ (by simp [hpk]), ih]
    · by_cases hpk : p.1 = k
      · rw [List.map_cons, if_neg hp, List.find?_cons_of_pos _ (by simp [hpk]),
          List.find?_cons_of_pos _ (by simp [hpk])]
      · rw [List.map_cons, if_neg hp, List.find?_cons_of_neg _ (by simp [hpk]),
          List.find?_cons_of_neg _ (by simp [hpk]), ih]

theorem find?_none_of_any_false (t : HeadersM) (k : String)
    (hc : ¬ t.any (fun p => p.1 = k) = true) :
    List.find? (fun p => decide (p.1 = k)) t = none := by
  rw [List.find?_eq_none]
  intro p hp
  simp only [decide_eq_true_eq]
  intro he
  exact hc (List.any_eq_true.mpr ⟨p, hp, by simpa using he⟩)

theorem hGet_rhInsert (h : HeadersM) (k : String) (v : List String) :
    hGet (rhInsert h k v) k = some v := by
  unfold rhInsert hGet
  by_cases hc : h.any (fun p => p.1 = k)
  · rw [if_pos hc, find?_map_keyhit h k v hc]
    rfl
  · rw [if_neg hc, List.find?_append, find?_none_of_any_false h k hc]
    simp [List.find?]

theorem hGet_rhInsert_ne (h : HeadersM) (k k' : String) (v : List String) (hne : k' ≠ k) :
    hGet (rhInsert h k' v) k = hGet h k := by
  unfold rhInsert hGet
  by_cases hc : h.any (fun p => p.1 = k')
  · rw [if_pos hc, find?_map_keyfix h k k' v hne]
  · rw [if_neg hc, List.find?_append]
    have hlast : List.find? (fun p => decide (p.1 = k)) [(k', v)] = none := by
      simp [List.find?, hne]
    cases hh : h.find? (fun p => decide (p.1 = k)) <;> simp [hh, hlast]

/-- C7 (amended): with a status set, `send()` serializes the status line
`HTTP/1.1 <code> <reason>\r\n` (reason `Custom Status` when the code has no
table entry), then one `name: value\r\n` line per header value with names in
the hash map's iteration order — an arbitrary permutation of the final key
set, NOT insertion order — where the final map is the user map with
`Content-Length` inserted (and `Connection: keep-alive` inserted only when
the connection is kept alive), then a blank `\r\n` line, then the body,
omitted for `HEAD` requests. -/
theorem response_serialization_amended (order : List String) (reqHeaders : HeadersM)
    (bodyRead : Bool) (method : String) (code : Nat) (hdrs : HeadersM) (content : String)
    (horder : order.Perm (rhKeys (responseFinalHeaders reqHeaders bodyRead hdrs content))) :
    writeHttp order reqHeaders bodyRead method (some code) (some hdrs) (some content) =
      some ("HTTP/1.1 " ++ toString code ++ " " ++ ((statusText code).getD "Custom Status")
        ++ "\r\n"
        ++ String.join (order.map (headerLines (responseFinalHeaders reqHeaders bodyRead hdrs content)))
        ++ "\r\n"
        ++ (if method ≠ "HEAD" then content else "")) ∧
    hGet (responseFinalHeaders reqHeaders bodyRead hdrs content) "Content-Length" =
      some [toString content.length] ∧
    (shouldCloseConnection reqHeaders bodyRead = false →
      hGet (responseFinalHeaders reqHeaders bodyRead hdrs content) "Connection" =
        some ["keep-alive"]) ∧
    (shouldCloseConnection reqHeaders bodyRead = true →
      responseFinalHeaders reqHeaders bodyRead hdrs content =
        rhInsert hdrs "Content-Length" [toString content.length]) := by
  refine ⟨rfl, ?_, ?_, ?_⟩
  · unfold responseFinalHeaders
    by_cases hclose : shouldCloseConnection reqHeaders bodyRead
    · simp only [hclose]
      simp [hGet_rhInsert]
    · have hfalse : shouldCloseConnection reqHeaders bodyRead = false := by
        simpa using hclose
      rw [hfalse, if_pos (by decide : ¬ (false = true))]
      rw [hGet_rhInsert_ne _ _ _ _ (by decide)]
      exact hGet_rhInsert hdrs "Content-Length" [toString content.length]
  · intro hclose
    unfold responseFinalHeaders
    simp only [hclose, Bool.not_false, if_true]
    exact hGet_rhInsert _ "Connection" ["keep-alive"]
  · intro hclose
    unfold responseFinalHeaders
    rw [hclose]
    simp

/-- Closed witness for `response_serialization_amended`, instantiating the
iteration order with the key list itself (a permutation of itself). -/
theorem response_serialization_amended_witness :
    writeHttp (rhKeys (responseFinalHeaders [] true [("A", ["1"])] "hi")) [] true "GET"
        (some 200) (some [("A", ["1"])]) (some "hi") =
      some ("HTTP/1.1 " ++ toString 200 ++ " " ++ ((statusText 200).getD "Custom Status")
        ++ "\r\n"
        ++ String.join ((rhKeys (responseFinalHeaders [] true [("A", ["1"])] "hi")).map
            (headerLines (responseFinalHeaders [] true [("A", ["1"])] "hi")))
        ++ "\r\n"
        ++ (if ("GET" : String) ≠ "HEAD" then "hi" else "")) ∧
    hGet (responseFinalHeaders [] true [("A", ["1"])] "hi") "Content-Length" =
      some [toString ("hi" : String).length] ∧
    (shouldCloseConnection [] true = false →
      hGet (responseFinalHeaders [] true [("A", ["1"])] "hi") "Connection" =
        some ["keep-alive"]) ∧
    (shouldCloseConnection [] true = true →
      responseFinalHeaders [] true [("A", ["1"])] "hi" =
        rhInsert [("A", ["1"])] "Content-Length" [toString ("hi" : String).length]) :=
  response_serialization_amended _ [] true "GET" 200 [("A", ["1"])] "hi" (List.Perm.refl _)

/-- C7 (counterexample to the claim as stated): the response headers are a
`std::HashMap`, so serialization follows hash-iteration order, not insertion
order.  With user headers inserted in order `A`, `B`, the iteration order
`["B", "Content-Length", "A"]` is a permutation of the final key set, and
the serialized output differs from the insertion-order output the claim
prescribes. -/
theorem response_serialization_order_counterexample :
    (["B", "Content-Length", "A"] : List String).Perm
      (rhKeys (responseFinalHeaders [] true [("A", ["1"]), ("B", ["2"])] "hi")) ∧
    writeHttp ["B", "Content-Length", "A"] [] true "GET" (some 200)
        (some [("A", ["1"]), ("B", ["2"])]) (some "hi") =
      some "HTTP/1.1 200 OK\r\nB: 2\r\nContent-Length: 2\r\nA: 1\r\n\r\nhi" ∧
    ("HTTP/1.1 200 OK\r\nB: 2\r\nContent-Length: 2\r\nA: 1\r\n\r\nhi" : String) ≠
      "HTTP/1.1 200 OK\r\nA: 1\r\nB: 2\r\nContent-Length: 2\r\n\r\nhi" := by
  refine ⟨by decide, by decide, by decide⟩

/-! ## Theorems for C2 (multipart part-header extraction across chunks) -/

/-- C2 (code bug): a part header of 8 bytes `abcdefgh` whose `\r\n\r\n`
terminator arrives in the next reader chunk.  `extract_form_part_header`
moves 4 buffer bytes aside but appends the literal `header_end_bytes`
(`\r\n\r\n`) to the header accumulator instead of them (parser/mod.rs:760,
contradicting its own comment "we copy the unmatched buffer too"), so the
returned header block is `\r\n\r\nefgh`, not the claimed `abcdefgh` — which
a single-chunk delivery of the same bytes does return. -/
theorem extract_form_part_header_corrupts_spanning_header :
    extractFormPartHeader [strBytes "\r\n\r\n"] (strBytes "abcdefgh") LimitsM.noLimits [] =
      .ok (strBytes "\r\n\r\nefgh", [], []) ∧
    extractFormPartHeader [] (strBytes "abcdefgh" ++ strBytes "\r\n\r\n") LimitsM.noLimits [] =
      .ok (strBytes "abcdefgh", [], []) ∧
    strBytes "\r\n\r\nefgh" ≠ strBytes "abcdefgh" := by
  refine ⟨by decide, by decide, by decide⟩

/-! ## Theorems for C9 (multipart size pre-check) -/

/-- C9: when the declared `Content-Length` exceeds `max_body_size`,
`multipart::parse` returns `MaxBodySizeExceed` for EVERY reader state — the
result does not depend on the reader, which is never touched, so its
`bytes_read` is unchanged. -/
theorem multipart_rejects_oversized_before_reading (fuel : Nat) (partialBytes : List Nat)
    (headers : HeadersM) (limits : LimitsM) (contentType : String) (restValues : List String)
    (boundary : List Char) (cl maxBodySize : Nat)
    (hct : hGet headers "Content-Type" = some (contentType :: restValues))
    (hb : extractBoundary contentType.data = some (some boundary))
    (hmax : limits.max_body_size = some maxBodySize)
    (hcl : contentLength headers = some (some cl))
    (hgt : cl > maxBodySize) :
    ∀ reader : MReader,
      multipartParse fuel partialBytes headers reader limits =
        some (.error (.MaxBodySizeExceed "Maximum specified body size exceed.")) := by
  intro reader
  unfold multipartParse
  rw [hct]
  simp only [hb, hmax, hcl, if_pos hgt]

/-- Closed witness for `multipart_rejects_oversized_before_reading`:
`Content-Length: 100` against `max_body_size = 50`, instantiated at a
concrete nonempty reader. -/
theorem multipart_rejects_oversized_before_reading_witness :
    multipartParse 1 []
        [("Content-Type", ["multipart/form-data; boundary=b"]), ("Content-Length", ["100"])]
        [[7]] ⟨some 50, none, []⟩ =
      some (.error (.MaxBodySizeExceed "Maximum specified body size exceed.")) :=
  multipart_rejects_oversized_before_reading 1 []
    [("Content-Type", ["multipart/form-data; boundary=b"]), ("Content-Length", ["100"])]
    ⟨some 50, none, []⟩ "multipart/form-data; boundary=b" [] (strChars "b") 100 50
    (by decide) (by decide) rfl (by decide) (by decide) [[7]]

/-! ## Infrastructure for C3: `findSub` and append lemmas -/

theorem take_len_append {α : Type} (l t : List α) : (l ++ t).take l.length = l := by
  induction l with
  | nil => rfl
  | cons x l ih => simp [ih]

theorem drop_len_append {α : Type} (l t : List α) : (l ++ t).drop l.length = t := by
  induction l with
  | nil => rfl
  | cons x l ih => simp [ih]

theorem take_len_append' {α : Type} (l t : List α) (n : Nat) (h : n = l.length) :
    (l ++ t).take n = l := h ▸ take_len_append l t

theorem drop_len_append' {α : Type} (l t : List α) (n : Nat) (h : n = l.length) :
    (l ++ t).drop n = t := h ▸ drop_len_append l t

theorem findSub_fits (pat l : List Nat) (i : Nat) (h : findSub pat l = some i) :
    i + pat.length ≤ l.length := by
  induction l generalizing i with
  | nil => simp [findSub] at h
  | cons x l ih =>
    have h' : (if (x :: l).take pat.length = pat then some 0
        else (findSub pat l).map (· + 1)) = some i := h
    by_cases hp : (x :: l).take pat.length = pat
    · rw [if_pos hp] at h'
      cases h'
      have := congrArg List.length hp
      simp [List.length_take] at this
      simp only [List.length_cons]
      omega
    · rw [if_neg hp] at h'
      cases hj : findSub pat l with
      | none => rw [hj] at h'; cases h'
      | some j =>
        rw [hj] at h'
        cases h'
        have := ih j hj
        simp only [List.length_cons, Option.map_some]
        omega

theorem findSub_append_found (pat l t : List Nat) (i : Nat) (h : findSub pat l = some i) :
    findSub pat (l ++ t) = some i := by
  induction l generalizing i with
  | nil => simp [findSub] at h
  | cons x l ih =>
    have h' : (if (x :: l).take pat.length = pat then some 0
        else (findSub pat l).map (· + 1)) = some i := h
    rw [List.cons_append]
    show (if (x :: (l ++ t)).take pat.length = pat then some 0
        else (findSub pat (l ++ t)).map (· + 1)) = some i
    by_cases hp : (x :: l).take pat.length = pat
    · rw [if_pos hp] at h'
      have hlen : pat.length ≤ (x :: l).length := by
        have := congrArg List.length hp
        simp [List.length_take] at this
        simp only [List.length_cons]
        omega
      have hp2 : (x :: (l ++ t)).take pat.length = pat := by
        have he : (x :: (l ++ t)) = (x :: l) ++ t := by simp
        rw [he, List.take_append_of_le_length hlen, hp]
      rw [if_pos hp2]
      exact h'
    · rw [if_neg hp] at h'
      cases hj : findSub pat l with
      | none => rw [hj] at h'; cases h'
      | some j =>
        rw [hj] at h'
        have hlen : pat.length ≤ (x :: l).length := by
          have := findSub_fits pat l j hj
          simp only [List.length_cons]
          omega
        have hp2 : ¬ (x :: (l ++ t)).take pat.length = pat := by
          have he : (x :: (l ++ t)) = (x :: l) ++ t := by simp
          rw [he, List.take_append_of_le_length hlen]
          exact hp
        rw [if_neg hp2, ih j hj]
        exact h'

/-! ## Infrastructure for C3: symbolic evaluation of the parser steps -/

theorem extractFormPartHeader_found (reader : MReader) (H R : List Nat)
    (hfind : findSub crlfcrlf (H ++ crlfcrlf) = some H.length) :
    extractFormPartHeader reader ((H ++ crlfcrlf) ++ R) LimitsM.noLimits [] =
      .ok (H, R, reader) := by
  have h2 : findSub crlfcrlf ((H ++ crlfcrlf) ++ R) = some H.length :=
    findSub_append_found _ _ _ _ hfind
  have htake : ((H ++ crlfcrlf) ++ R).take H.length = H := by
    rw [List.append_assoc]
    exact take_len_append H _
  have hdrop : ((H ++ crlfcrlf) ++ R).drop (H.length + crlfcrlf.length) = R :=
    drop_len_append' _ _ _ (List.length_append _ _).symm
  unfold extractFormPartHeader
  rw [h2]
  simp only [htake, hdrop, List.nil_append, headerSizeExceeded, LimitsM.noLimits,
    Bool.false_eq_true, if_false]

theorem boundaryTail_last (reader : MReader) :
    boundaryTail reader endBodyBytes = .ok (.BodyCompleted, [], reader) := rfl

theorem boundaryTail_next (reader : MReader) (T : List Nat) (h : 2 ≤ T.length) :
    boundaryTail reader (crlf ++ T) = .ok (.CheckNext, T, reader) := by
  have hlen : ¬ (crlf ++ T).length < 4 := by
    simp only [List.length_append, crlf, List.length_cons, List.length_nil]
    omega
  have h4 : ¬ (crlf ++ T).take 4 = endBodyBytes := by
    show ¬ ((13 : Nat) :: 10 :: T).take 4 = [45, 45, 13, 10]
    intro he
    rw [List.take_succ_cons, List.take_succ_cons] at he
    exact absurd (List.head_eq_of_cons_eq he) (by decide)
  have h2' : (crlf ++ T).take 2 = crlf := by
    show ((13 : Nat) :: 10 :: T).take 2 = [13, 10]
    rw [List.take_succ_cons, List.take_succ_cons, List.take_zero]
  have hdrop : (crlf ++ T).drop 2 = T := rfl
  unfold boundaryTail
  rw [if_neg hlen]
  simp only [if_neg h4, if_pos h2', hdrop]

theorem extractFormValue_found (b : List Char) (fpName : Option (List Char)) (reader : MReader)
    (C T : List Nat) (hC : C ≠ [])
    (hfind : findSub (interBytes b) (C ++ interBytes b) = some C.length) :
    extractFormValue b fpName none reader ((C ++ interBytes b) ++ T) [] 0 =
      match boundaryTail reader T with
      | .error e => some (.error e)
      | .ok (res, buf, rdr) => some (.ok (stripTrailingCrlf C, res, buf, rdr)) := by
  have h2 : findSub (interBytes b) ((C ++ interBytes b) ++ T) = some C.length :=
    findSub_append_found _ _ _ _ hfind
  have hpos : C.length > 0 := List.length_pos.mpr hC
  have htake : ((C ++ interBytes b) ++ T).take C.length = C := by
    rw [List.append_assoc]
    exact take_len_append C _
  have hdrop : ((C ++ interBytes b) ++ T).drop (C.length + (interBytes b).length) = T :=
    drop_len_append' _ _ _ (List.length_append _ _).symm
  unfold extractFormValue
  dsimp only
  rw [h2]
  simp only [htake, hdrop, if_pos hpos, List.nil_append, fieldLimitCheck]
  cases hbt : boundaryTail reader T with
  | error e => rfl
  | ok r =>
    obtain ⟨res, buf, rdr⟩ := r
    rfl

theorem extractFormFileBody_found (b : List Char) (fpName : Option (List Char)) (reader : MReader)
    (C T : List Nat) (hC : C ≠ [])
    (hfind : findSub (interBytes b) (C ++ interBytes b) = some C.length) :
    extractFormFileBody b fpName none reader ((C ++ interBytes b) ++ T) [] 0 =
      match boundaryTail reader T with
      | .error e => some (.error e)
      | .ok (res, buf, rdr) => some (.ok (stripTrailingCrlf C, res, buf, rdr)) := by
  have h2 : findSub (interBytes b) ((C ++ interBytes b) ++ T) = some C.length :=
    findSub_append_found _ _ _ _ hfind
  have hpos : C.length > 0 := List.length_pos.mpr hC
  have htake : ((C ++ interBytes b) ++ T).take C.length = C := by
    rw [List.append_assoc]
    exact take_len_append C _
  have hdrop : ((C ++ interBytes b) ++ T).drop (C.length + (interBytes b).length) = T :=
    drop_len_append' _ _ _ (List.length_append _ _).symm
  unfold extractFormFileBody
  dsimp only
  rw [h2]
  simp only [htake, hdrop, if_pos hpos, List.nil_append, fieldLimitCheck]
  cases hbt : boundaryTail reader T with
  | error e => rfl
  | ok r =>
    obtain ⟨res, buf, rdr⟩ := r
    rfl

theorem extractFormPartBody_found (b : List Char) (reader : MReader) (C T : List Nat)
    (fp : FormPart) (hC : C ≠ [])
    (hfind : findSub (interBytes b) (C ++ interBytes b) = some C.length) :
    extractFormPartBody reader ((C ++ interBytes b) ++ T) b fp LimitsM.noLimits =
      match boundaryTail reader T with
      | .error e => some (.error e)
      | .ok (res, buf, rdr) => some (.ok (finishPart fp C, res, buf, rdr)) := by
  have hlim : (match fp.name with
      | some nm => ((LimitsM.noLimits.form_part_limits).find? (fun p => p.1 = nm)).map (·.2)
      | none => none) = (none : Option FormPartLimit) := by
    cases fp.name <;> rfl
  unfold extractFormPartBody
  rw [hlim]
  by_cases hf : fp.filename.isSome
  · rw [if_pos hf, extractFormFileBody_found b fp.name reader C T hC hfind]
    cases hbt : boundaryTail reader T with
    | error e => rfl
    | ok r =>
      obtain ⟨res, buf, rdr⟩ := r
      unfold finishPart
      rw [if_pos hf]
  · rw [if_neg hf, extractFormValue_found b fp.name reader C T hC hfind]
    cases hbt : boundaryTail reader T with
    | error e => rfl
    | ok r =>
      obtain ⟨res, buf, rdr⟩ := r
      unfold finishPart
      rw [if_neg hf]

theorem partTail_length_ge (b : List Char) (parts : List PartSpec) (h : parts ≠ []) :
    2 ≤ (partTail b parts).length := by
  cases parts with
  | nil => exact absurd rfl h
  | cons p ps =>
    cases ps with
    | nil =>
      simp only [partTail, partBlock, endBodyBytes, interBytes, crlfcrlf, List.length_append,
        List.length_cons, List.length_nil]
      omega
    | cons q qs =>
      simp only [partTail, partBlock, interBytes, crlf, crlfcrlf, List.length_append,
        List.length_cons, List.length_nil]
      omega

theorem applyAttr_preserves (fp : FormPart) (av : List Char × List Char) :
    (applyAttr fp av).value = fp.value ∧ (applyAttr fp av).temp_file = fp.temp_file := by
  unfold applyAttr
  split_ifs <;> exact ⟨rfl, rfl⟩

theorem foldl_applyAttr_preserves (avs : List (List Char × List Char)) (fp : FormPart) :
    ((avs.foldl applyAttr fp).value = fp.value ∧
      (avs.foldl applyAttr fp).temp_file = fp.temp_file) := by
  induction avs generalizing fp with
  | nil => exact ⟨rfl, rfl⟩
  | cons av avs ih =>
    simp only [List.foldl_cons]
    obtain ⟨h1, h2⟩ := ih (applyAttr fp av)
    obtain ⟨g1, g2⟩ := applyAttr_preserves fp av
    exact ⟨h1.trans g1, h2.trans g2⟩

theorem parseContentDispositionValue_preserves (v : List Char) (fp : FormPart) :
    (parseContentDispositionValue v fp).value = fp.value ∧
      (parseContentDispositionValue v fp).temp_file = fp.temp_file := by
  unfold parseContentDispositionValue
  dsimp only
  split_ifs with h
  · exact foldl_applyAttr_preserves _ fp
  · exact ⟨rfl, rfl⟩

theorem parseHeaderLine_preserves (line : List Char) (fp : FormPart) :
    (parseHeaderLine line fp).value = fp.value ∧
      (parseHeaderLine line fp).temp_file = fp.temp_file := by
  unfold parseHeaderLine
  dsimp only
  by_cases he : trimChars line = []
  · rw [if_pos he]
    exact ⟨rfl, rfl⟩
  · rw [if_neg he]
    cases hs : splitOnCharL ':' (trimChars line) with
    | nil => exact ⟨rfl, rfl⟩
    | cons name rest =>
      cases rest with
      | nil => exact ⟨rfl, rfl⟩
      | cons value rest2 =>
        dsimp only
        by_cases h1 : (trimChars name).map Char.toLower = strChars "content-disposition"
        · rw [if_pos h1]
          exact parseContentDispositionValue_preserves _ fp
        · rw [if_neg h1]
          by_cases h2 : (trimChars name).map Char.toLower = strChars "content-type"
          · rw [if_pos h2]
            exact ⟨rfl, rfl⟩
          · rw [if_neg h2]
            exact ⟨rfl, rfl⟩

theorem foldl_parseHeaderLine_preserves (lines : List (List Char)) (fp : FormPart) :
    ((lines.foldl (fun fp line => parseHeaderLine line fp) fp).value = fp.value ∧
      (lines.foldl (fun fp line => parseHeaderLine line fp) fp).temp_file = fp.temp_file) := by
  induction lines generalizing fp with
  | nil => exact ⟨rfl, rfl⟩
  | cons line lines ih =>
    simp only [List.foldl_cons]
    obtain ⟨h1, h2⟩ := ih (parseHeaderLine line fp)
    obtain ⟨g1, g2⟩ := parseHeaderLine_preserves line fp
    exact ⟨h1.trans g1, h2.trans g2⟩

/-- The header parse never touches the body fields. -/
theorem parseFormPartHeader_no_body (h : List Char) :
    (parseFormPartHeader h).value = none ∧ (parseFormPartHeader h).temp_file = none := by
  unfold parseFormPartHeader
  exact foldl_parseHeaderLine_preserves _ FormPart.empty

/-- One unfolding of the part loop. -/
theorem parseBodyPartsLoop_succ (b : List Char) (limits : LimitsM) (fuel : Nat)
    (reader : MReader) (bodyBuffer : List Nat) (acc : List FormPart) :
    parseBodyPartsLoop b limits (fuel + 1) reader bodyBuffer acc =
      match extractFormPartHeader reader bodyBuffer limits [] with
      | .error e => some (.error e)
      | .ok (headerBytes, bodyBuffer, reader) =>
        let formPart := parseFormPartHeader (bytesToChars headerBytes)
        match extractFormPartBody reader bodyBuffer b formPart limits with
        | none => none
        | some (.error e) => some (.error e)
        | some (.ok (formPart, res, bodyBuffer, reader)) =>
          match res with
          | .BodyCompleted => some (.ok (acc ++ [formPart]))
          | .CheckNext =>
            parseBodyPartsLoop b limits fuel reader bodyBuffer (acc ++ [formPart]) := rfl

/-- The part loop consumes a well-formed tail into exactly its parts. -/
theorem parseBodyPartsLoop_spec (b : List Char) (parts : List PartSpec) :
    ∀ acc : List FormPart, parts ≠ [] → (∀ p ∈ parts, wfPart b p) →
    parseBodyPartsLoop b LimitsM.noLimits parts.length [] (partTail b parts) acc =
      some (.ok (acc ++ parts.map expectedFormPart)) := by
  induction parts with
  | nil => intro acc h; exact absurd rfl h
  | cons p ps ih =>
    intro acc _ hwf
    obtain ⟨hC, hfh, hfi⟩ := hwf p (List.mem_cons_self p ps)
    cases hps : ps with
    | nil =>
      subst hps
      have hb1 : partTail b [p] =
          (p.header ++ crlfcrlf) ++ ((p.content ++ interBytes b) ++ endBodyBytes) := by
        simp [partTail, partBlock, List.append_assoc]
      have e1 := extractFormPartHeader_found ([] : MReader) p.header
        ((p.content ++ interBytes b) ++ endBodyBytes) hfh
      have e2 := extractFormPartBody_found b ([] : MReader) p.content endBodyBytes
        (parseFormPartHeader (bytesToChars p.header)) hC hfi
      simp only [boundaryTail_last] at e2
      show parseBodyPartsLoop b LimitsM.noLimits (0 + 1) [] (partTail b [p]) acc = _
      rw [parseBodyPartsLoop_succ, hb1]
      simp only [e1, e2]
      simp [expectedFormPart]
    | cons q qs =>
      subst hps
      have hb1 : partTail b (p :: q :: qs) =
          (p.header ++ crlfcrlf) ++
            ((p.content ++ interBytes b) ++ (crlf ++ partTail b (q :: qs))) := by
        simp [partTail, partBlock, List.append_assoc]
      have e1 := extractFormPartHeader_found ([] : MReader) p.header
        ((p.content ++ interBytes b) ++ (crlf ++ partTail b (q :: qs))) hfh
      have e2 := extractFormPartBody_found b ([] : MReader) p.content
        (crlf ++ partTail b (q :: qs)) (parseFormPartHeader (bytesToChars p.header)) hC hfi
      have e3 := boundaryTail_next ([] : MReader) (partTail b (q :: qs))
        (partTail_length_ge b (q :: qs) (by simp))
      simp only [e3] at e2
      show parseBodyPartsLoop b LimitsM.noLimits ((q :: qs).length + 1) [] (partTail b (p :: q :: qs)) acc = _
      rw [parseBodyPartsLoop_succ, hb1]
      simp only [e1, e2]
      rw [ih (acc ++ [finishPart (parseFormPartHeader (bytesToChars p.header)) p.content])
        (by simp) (fun r hr => hwf r (List.mem_cons_of_mem p hr))]
      simp [expectedFormPart, List.append_assoc]

theorem countP_file_split (l : List PartSpec) :
    l.countP (fun p => !isFilePart p) + l.countP (fun p => isFilePart p) = l.length := by
  induction l with
  | nil => rfl
  | cons p t ih =>
    by_cases h : isFilePart p <;>
      simp [List.countP_cons, h] <;> omega

/-- C3 (amended): for every well-formed multipart body with `k` value parts
and `m` file parts, ALL of nonempty content, `parse_body_parts` returns
exactly `k + m` `FormPart`s in source order: the `i`-th output carries the
`i`-th part's parsed name, holds a spooled temp file and no in-memory value
when that part has a `filename`, holds an in-memory value and no temp file
otherwise, and never both.  (The nonemptiness proviso is forced by the
counterexample: a final part with empty content derails the boundary-tail
step and the parser errors instead.) -/
theorem multipart_value_file_parts (b : List Char) (parts : List PartSpec)
    (hne : parts ≠ []) (hwf : ∀ p ∈ parts, wfPart b p) :
    ∃ out : List FormPart,
      parseBodyParts parts.length [] (serializeMultipart b parts) b LimitsM.noLimits =
        some (.ok out) ∧
      out.length =
        parts.countP (fun p => !isFilePart p) + parts.countP (fun p => isFilePart p) ∧
      ∀ i (hi : i < out.length) (hp : i < parts.length),
        (out.get ⟨i, hi⟩).value.isSome = !isFilePart (parts.get ⟨i, hp⟩) ∧
        (out.get ⟨i, hi⟩).temp_file.isSome = isFilePart (parts.get ⟨i, hp⟩) ∧
        ¬((out.get ⟨i, hi⟩).value.isSome = true ∧ (out.get ⟨i, hi⟩).temp_file.isSome = true) ∧
        (out.get ⟨i, hi⟩).name =
          (parseFormPartHeader (bytesToChars (parts.get ⟨i, hp⟩).header)).name := by
  refine ⟨parts.map expectedFormPart, ?_, ?_, ?_⟩
  · have htail2 := partTail_length_ge b parts hne
    have hlen : ¬ (serializeMultipart b parts).length ≤ (startBoundaryBytes b).length := by
      simp only [serializeMultipart, List.length_append]
      omega
    have hstart : bodyBufferStartsWithBoundary (serializeMultipart b parts)
        (startBoundaryBytes b) = true := by
      unfold bodyBufferStartsWithBoundary serializeMultipart
      simp [take_len_append]
    have hdrop : (serializeMultipart b parts).drop (startBoundaryBytes b).length =
        partTail b parts := drop_len_append _ _
    unfold parseBodyParts
    dsimp only
    rw [if_neg hlen]
    dsimp only
    rw [hstart]
    simp only [Bool.not_true, Bool.false_eq_true, if_false, hdrop]
    simpa using parseBodyPartsLoop_spec b parts [] hne hwf
  · rw [List.length_map, ← countP_file_split]
  · intro i hi hp
    have hget : (parts.map expectedFormPart).get ⟨i, hi⟩ =
        expectedFormPart (parts.get ⟨i, hp⟩) := by simp
    rw [hget]
    unfold isFilePart
    generalize parts.get ⟨i, hp⟩ = q
    unfold expectedFormPart finishPart
    obtain ⟨hv, ht⟩ := parseFormPartHeader_no_body (bytesToChars q.header)
    generalize parseFormPartHeader (bytesToChars q.header) = fp at hv ht ⊢
    cases fp with
    | mk nm fn ct tf vl =>
      dsimp only at hv ht
      subst hv
      subst ht
      cases fn with
      | some f => exact ⟨rfl, rfl, by simp, rfl⟩
      | none => exact ⟨rfl, rfl, by simp, rfl⟩

/-- Closed witness for `multipart_value_file_parts`: one value part
(`name`, content `John Doe`) and one file part (`file` / `a.txt`, content
`hello\n`) with boundary `b` — the body of scenario S2. -/
theorem multipart_value_file_parts_witness :
    (([⟨strBytes "Content-Disposition: form-data; name=\"name\"", strBytes "John Doe"⟩,
       ⟨strBytes "Content-Disposition: form-data; name=\"file\"; filename=\"a.txt\"\r\nContent-Type: text/plain",
        strBytes "hello\n"⟩] : List PartSpec) ≠ []) ∧
    (∀ p ∈ ([⟨strBytes "Content-Disposition: form-data; name=\"name\"", strBytes "John Doe"⟩,
       ⟨strBytes "Content-Disposition: form-data; name=\"file\"; filename=\"a.txt\"\r\nContent-Type: text/plain",
        strBytes "hello\n"⟩] : List PartSpec), wfPart (strChars "b") p) ∧
    ∃ out : List FormPart,
      parseBodyParts
          ([⟨strBytes "Content-Disposition: form-data; name=\"name\"", strBytes "John Doe"⟩,
            ⟨strBytes "Content-Disposition: form-data; name=\"file\"; filename=\"a.txt\"\r\nContent-Type: text/plain",
             strBytes "hello\n"⟩] : List PartSpec).length []
          (serializeMultipart (strChars "b")
            [⟨strBytes "Content-Disposition: form-data; name=\"name\"", strBytes "John Doe"⟩,
             ⟨strBytes "Content-Disposition: form-data; name=\"file\"; filename=\"a.txt\"\r\nContent-Type: text/plain",
              strBytes "hello\n"⟩])
          (strChars "b") LimitsM.noLimits =
        some (.ok out) ∧
      out.length =
        ([⟨strBytes "Content-Disposition: form-data; name=\"name\"", strBytes "John Doe"⟩,
          ⟨strBytes "Content-Disposition: form-data; name=\"file\"; filename=\"a.txt\"\r\nContent-Type: text/plain",
           strBytes "hello\n"⟩] : List PartSpec).countP (fun p => !isFilePart p) +
        ([⟨strBytes "Content-Disposition: form-data; name=\"name\"", strBytes "John Doe"⟩,
          ⟨strBytes "Content-Disposition: form-data; name=\"file\"; filename=\"a.txt\"\r\nContent-Type: text/plain",
           strBytes "hello\n"⟩] : List PartSpec).countP (fun p => isFilePart p) ∧
      ∀ i (hi : i < out.length)
        (hp : i < ([⟨strBytes "Content-Disposition: form-data; name=\"name\"", strBytes "John Doe"⟩,
          ⟨strBytes "Content-Disposition: form-data; name=\"file\"; filename=\"a.txt\"\r\nContent-Type: text/plain",
           strBytes "hello\n"⟩] : List PartSpec).length),
        (out.get ⟨i, hi⟩).value.isSome =
          !isFilePart (([⟨strBytes "Content-Disposition: form-data; name=\"name\"", strBytes "John Doe"⟩,
            ⟨strBytes "Content-Disposition: form-data; name=\"file\"; filename=\"a.txt\"\r\nContent-Type: text/plain",
             strBytes "hello\n"⟩] : List PartSpec).get ⟨i, hp⟩) ∧
        (out.get ⟨i, hi⟩).temp_file.isSome =
          isFilePart (([⟨strBytes "Content-Disposition: form-data; name=\"name\"", strBytes "John Doe"⟩,
            ⟨strBytes "Content-Disposition: form-data; name=\"file\"; filename=\"a.txt\"\r\nContent-Type: text/plain",
             strBytes "hello\n"⟩] : List PartSpec).get ⟨i, hp⟩) ∧
        ¬((out.get ⟨i, hi⟩).value.isSome = true ∧ (out.get ⟨i, hi⟩).temp_file.isSome = true) ∧
        (out.get ⟨i, hi⟩).name =
          (parseFormPartHeader (bytesToChars
            (([⟨strBytes "Content-Disposition: form-data; name=\"name\"", strBytes "John Doe"⟩,
              ⟨strBytes "Content-Disposition: form-data; name=\"file\"; filename=\"a.txt\"\r\nContent-Type: text/plain",
               strBytes "hello\n"⟩] : List PartSpec).get ⟨i, hp⟩).header)).name :=
  ⟨by decide, by decide, multipart_value_file_parts (strChars "b") _ (by decide) (by decide)⟩

/-- C3 (counterexample to the claim as stated): the well-formed one-part
body `--b\r\nContent-Disposition: form-data; name="a"\r\n\r\n\r\n--b--\r\n`
has `k = 1` value parts and `m = 0` file parts, yet the parser returns
`BodyReadEnd` instead of a one-element list: with the part's content empty,
the `\r\n--b` separator is found at index 0 and the code skips consuming it
(`if body_end_index > 0`, parser/mod.rs:919/1065), derailing the
boundary-tail step. -/
theorem multipart_empty_final_part_counterexample :
    isFilePart ⟨strBytes "Content-Disposition: form-data; name=\"a\"", []⟩ = false ∧
    serializeMultipart (strChars "b")
        [⟨strBytes "Content-Disposition: form-data; name=\"a\"", []⟩] =
      strBytes "--b\r\nContent-Disposition: form-data; name=\"a\"\r\n\r\n\r\n--b--\r\n" ∧
    parseBodyParts 2 []
        (strBytes "--b\r\nContent-Disposition: form-data; name=\"a\"\r\n\r\n\r\n--b--\r\n")
        (strChars "b") LimitsM.noLimits = some (.error .BodyReadEnd) ∧
    parseBodyParts 5 []
        (strBytes "--b\r\nContent-Disposition: form-data; name=\"a\"\r\n\r\n\r\n--b--\r\n")
        (strChars "b") LimitsM.noLimits = some (.error .BodyReadEnd) := by
  refine ⟨by decide, by decide, by decide, by decide⟩

end RustyWeb
